import Mathlib

/-!
Shallow embedding of `src/script.js` (browser virtual piano).

The embedding covers the three core components the specification calls the
"event timeline" subsystem:

* `PianoAudioEngine` (voice manager): `playNote`, `stopNote`, `setSustain`,
  with the note → frequency table.  Web-Audio voices are opaque handles in the
  source; here every created voice gets a fresh numeric identity and we record
  which voice identities ever had their `stop()` capability invoked, so that
  "live" (sounding) voices are observable.
* `RecordingEngine.playback`: the await/dispatch loop is modelled on an
  idealised millisecond clock (no scheduler jitter, dispatch is instantaneous);
  an `await` for a positive delay advances the clock to the target instant.
* `AIComposer`: mood analysis, melody generation (with every `Math.random()`
  call modelled as one value of an ambient rational stream `rng : Nat → ℚ`
  taking values in `[0,1)`), and the self-rescheduling composition loop,
  modelled as a state machine whose pending `setTimeout` handles for the
  next-tick callback are explicit.

JS `Map`s are association lists (keys are unique in every reachable state, so
deleting all entries of a key coincides with `Map.delete`), JS `Set`s are
duplicate-free lists in insertion order, and JS numbers are `Nat`/`Int`/`ℚ`
(the source only ever multiplies integer millisecond durations by the literals
0.8 and 0.7/0.5 thresholds, which ℚ represents exactly; IEEE-754 rounding is
abstracted away).
-/

/-- Lookup in an association list with string keys (JS `Map.get` /
property access on an object literal). -/
def lookupKey {α : Type} (key : String) : List (String × α) → Option α
  | [] => none
  | (k, v) :: rest => if k = key then some v else lookupKey key rest

/-- JS `Map.set`: overwrite the entry in place if the key is present,
otherwise append. -/
def setAssoc (key : String) (v : Nat) : List (String × Nat) → List (String × Nat)
  | [] => [(key, v)]
  | (k, w) :: rest => if k = key then (key, v) :: rest else (k, w) :: setAssoc key v rest

/-- JS `Map.delete`: keys are unique in every reachable map, so removing every
entry with the key coincides with deleting the one entry. -/
def eraseKey (key : String) : List (String × Nat) → List (String × Nat)
  | [] => []
  | (k, v) :: rest => if k = key then eraseKey key rest else (k, v) :: eraseKey key rest

/-- JS `Set.add`: append if absent (sets iterate in insertion order). -/
def insertNoteSet (n : String) (s : List String) : List String :=
  if n ∈ s then s else s ++ [n]

/-- `PianoAudioEngine.noteFrequencies`: the 17-entry note table (C4–E5). -/
def noteFrequencies : List (String × ℚ) :=
  [("C4", 26163/100), ("C#4", 27718/100), ("D4", 29366/100), ("D#4", 31113/100),
   ("E4", 32963/100), ("F4", 34923/100), ("F#4", 36999/100), ("G4", 392),
   ("G#4", 41530/100), ("A4", 440), ("A#4", 46616/100), ("B4", 49388/100),
   ("C5", 52325/100), ("C#5", 55437/100), ("D5", 58733/100), ("D#5", 62225/100),
   ("E5", 65925/100)]

/-- State of a `PianoAudioEngine` instance.  `activeNotes` maps note
identifiers to the identity of the voice stored for them; `createdVoices`
records every voice ever returned by `createPianoSound` (with its note) and
`stoppedVoices` the identities whose `stop()` was invoked, so ghost voices
(created, never stopped, no longer in the map) are observable. -/
structure PianoState where
  activeNotes : List (String × Nat)
  sustainActive : Bool
  sustainedNotes : List String
  createdVoices : List (Nat × String)
  stoppedVoices : List Nat
  nextVoiceId : Nat
deriving DecidableEq

/-- The engine state built by the `PianoAudioEngine` constructor. -/
def pianoInit : PianoState :=
  { activeNotes := [], sustainActive := false, sustainedNotes := [],
    createdVoices := [], stoppedVoices := [], nextVoiceId := 0 }

/-- Stop-and-remove of one note's active voice, if any: the common body of
`stopNote`'s non-sustain path and of the per-note flush inside
`setSustain(false)` (the source spells this code out twice, identically). -/
def flushStep (note : String) (st : PianoState) : PianoState :=
  match lookupKey note st.activeNotes with
  | some voiceId =>
      { st with activeNotes := eraseKey note st.activeNotes,
                stoppedVoices := voiceId :: st.stoppedVoices }
  | none => st

/-- `PianoAudioEngine.stopNote`: under sustain, defer by adding the note to
the held-set; otherwise stop and remove the active voice, if any.  Note the
source performs no known-note check here. -/
def stopNote (note : String) (st : PianoState) : PianoState :=
  if st.sustainActive then
    { st with sustainedNotes := insertNoteSet note st.sustainedNotes }
  else
    flushStep note st

/-- `PianoAudioEngine.playNote`: unknown notes are rejected; if the note is
already in `activeNotes` the source calls `stopNote` first, then creates a new
voice (fresh identity) and stores it. -/
def playNote (note : String) (st : PianoState) : PianoState :=
  match lookupKey note noteFrequencies with
  | none => st
  | some _ =>
      let st1 := if (lookupKey note st.activeNotes).isSome then stopNote note st else st
      { st1 with
        createdVoices := st1.createdVoices ++ [(st1.nextVoiceId, note)],
        activeNotes := setAssoc note st1.nextVoiceId st1.activeNotes,
        nextVoiceId := st1.nextVoiceId + 1 }

/-- The `sustainedNotes.forEach` flush loop inside `setSustain(false)`:
stop and remove the active voice of each held note. -/
def flushSustained : List String → PianoState → PianoState
  | [], st => st
  | n :: rest, st => flushSustained rest (flushStep n st)

/-- `PianoAudioEngine.setSustain`. -/
def setSustain (active : Bool) (st : PianoState) : PianoState :=
  let st1 := { st with sustainActive := active }
  if active then st1
  else
    let st2 := flushSustained st.sustainedNotes st1
    { st2 with sustainedNotes := [] }

/-- Voice identities created for `note` whose `stop()` was never invoked,
i.e. the voices of `note` still sounding. -/
def liveVoices (st : PianoState) (note : String) : List Nat :=
  (st.createdVoices.filter
    (fun p => p.2 == note && !(st.stoppedVoices.contains p.1))).map Prod.fst

/-- External events the voice manager reacts to. -/
inductive PianoOp where
  | press (note : String)
  | release (note : String)
  | pedal (active : Bool)
deriving DecidableEq

/-- One voice-manager transition. -/
def pianoStep (st : PianoState) : PianoOp → PianoState
  | .press n => playNote n st
  | .release n => stopNote n st
  | .pedal b => setSustain b st

/-- Run a sequence of press/release/pedal events from the constructor state. -/
def runPiano (ops : List PianoOp) : PianoState :=
  ops.foldl pianoStep pianoInit

/-- Invariant of §3 SustainState: the held-set is nonempty only while sustain
is active. -/
def SustainInv (st : PianoState) : Prop :=
  st.sustainActive = false → st.sustainedNotes = []

/-- One element of `RecordingEngine.recordedNotes`. -/
structure RecordedEvent where
  note : String
  timestamp : Nat
  isPress : Bool
deriving DecidableEq

/-- A call placed on the playback sink (`piano.pressKey` / `piano.releaseKey`). -/
inductive SinkCall where
  | press (note : String)
  | release (note : String)
deriving DecidableEq

/-- The `for … await` loop of `RecordingEngine.playback` on the idealised
clock: `now` is the current instant, `anchor` is the wall-clock time taken at
playback start; an event with recorded offset `t` is dispatched at
`max now (anchor + t)` (the loop awaits only when the delay is positive), and
dispatch itself takes no time. -/
def playbackGo (anchor : Nat) : Nat → List RecordedEvent → List (Nat × RecordedEvent)
  | _, [] => []
  | now, e :: rest =>
      (max now (anchor + e.timestamp), e) ::
        playbackGo anchor (max now (anchor + e.timestamp)) rest

/-- `RecordingEngine.playback`: the timed trace of dispatched events. -/
def playbackTrace (events : List RecordedEvent) (anchor : Nat) : List (Nat × RecordedEvent) :=
  playbackGo anchor anchor events

/-- The sink calls `playback` performs: `press` for `isPress` events,
`release` otherwise, at the dispatch instants of `playbackTrace`. -/
def playbackCalls (events : List RecordedEvent) (anchor : Nat) : List (Nat × SinkCall) :=
  (playbackTrace events anchor).map (fun te =>
    (te.1, if te.2.isPress then SinkCall.press te.2.note else SinkCall.release te.2.note))

/-- `AIComposer.musicTheory.chordProgressions`. -/
def chordProgressions : List (String × List (List String)) :=
  [("happy", [["C4", "E4", "G4"], ["F4", "A4", "C5"], ["G4", "B4", "D5"], ["C4", "E4", "G4"]]),
   ("sad", [["C4", "D#4", "G4"], ["G#4", "C5", "D#5"], ["F4", "G#4", "C5"], ["C4", "D#4", "G4"]]),
   ("peaceful", [["C4", "E4", "G4"], ["G4", "B4", "D5"], ["A4", "C5", "E5"], ["F4", "A4", "C5"]]),
   ("energetic", [["C4", "E4", "G4"], ["D4", "F#4", "A4"], ["G4", "B4", "D5"], ["C4", "E4", "G4"]]),
   ("mysterious", [["C4", "D#4", "F#4"], ["D4", "F4", "G#4"], ["C4", "E4", "G#4"], ["C4", "D#4", "F#4"]]),
   ("romantic", [["C4", "E4", "G4"], ["A4", "C5", "E5"], ["F4", "A4", "C5"], ["G4", "B4", "D5"]]),
   ("epic", [["C4", "E4", "G4"], ["D4", "F#4", "A4"], ["E4", "G#4", "B4"], ["C4", "E4", "G4"]])]

/-- `AIComposer.musicTheory.scales`. -/
def musicScales : List (String × List String) :=
  [("major", ["C4", "D4", "E4", "F4", "G4", "A4", "B4", "C5", "D5", "E5"]),
   ("minor", ["C4", "D4", "D#4", "F4", "G4", "G#4", "A#4", "C5", "D5", "D#5"]),
   ("pentatonic", ["C4", "D4", "E4", "G4", "A4", "C5", "D5", "E5"]),
   ("blues", ["C4", "D#4", "F4", "F#4", "G4", "A#4", "C5", "D#5"]),
   ("harmonic", ["C4", "D4", "D#4", "F4", "G4", "G#4", "B4", "C5"]),
   ("chromatic", ["C4", "C#4", "D4", "D#4", "E4", "F4", "F#4", "G4", "G#4", "A4", "A#4", "B4", "C5"])]

/-- `AIComposer.musicTheory.rhythms` (durations in milliseconds). -/
def rhythms : List (String × List Nat) :=
  [("slow", [800, 1200, 800, 1600]),
   ("moderate", [400, 600, 400, 800]),
   ("fast", [200, 300, 200, 400]),
   ("flowing", [500, 500, 500, 500]),
   ("syncopated", [300, 200, 500, 400])]

/-- One entry of `AIComposer.moodConfigs`. -/
structure MoodConfig where
  name : String
  scale : String
  progression : String
  rhythm : String
  tempo : Nat
  dynamics : String
  pattern : String
  description : String
deriving DecidableEq

/-- Placeholder configuration (used only as a `getD` default in statements). -/
def emptyMoodConfig : MoodConfig :=
  { name := "", scale := "", progression := "", rhythm := "", tempo := 0,
    dynamics := "", pattern := "", description := "" }

/-- `AIComposer.moodConfigs`: the 12 registered mood keys. -/
def moodConfigs : List (String × MoodConfig) :=
  [("spring",
    { name := "🌸 Spring Blossom", scale := "pentatonic", progression := "happy",
      rhythm := "moderate", tempo := 450, dynamics := "light", pattern := "ascending",
      description := "Bright, uplifting melody with gentle flowing notes" }),
   ("summer",
    { name := "☀️ Summer Joy", scale := "major", progression := "energetic",
      rhythm := "fast", tempo := 350, dynamics := "bright", pattern := "playful",
      description := "Energetic, joyful composition with vibrant rhythms" }),
   ("autumn",
    { name := "🍂 Autumn Melancholy", scale := "minor", progression := "sad",
      rhythm := "slow", tempo := 600, dynamics := "mellow", pattern := "descending",
      description := "Melancholic, reflective melody with falling notes" }),
   ("winter",
    { name := "❄️ Winter Serenity", scale := "harmonic", progression := "peaceful",
      rhythm := "slow", tempo := 700, dynamics := "soft", pattern := "sparse",
      description := "Serene, crystalline notes creating peaceful atmosphere" }),
   ("rain",
    { name := "🌧️ Rainy Day", scale := "blues", progression := "sad",
      rhythm := "flowing", tempo := 500, dynamics := "gentle", pattern := "cascading",
      description := "Gentle, flowing melody like raindrops falling" }),
   ("storm",
    { name := "⛈️ Thunderstorm", scale := "chromatic", progression := "mysterious",
      rhythm := "syncopated", tempo := 300, dynamics := "intense", pattern := "chaotic",
      description := "Dramatic, intense composition with powerful dynamics" }),
   ("sunrise",
    { name := "🌅 Sunrise Hope", scale := "major", progression := "happy",
      rhythm := "slow", tempo := 550, dynamics := "building", pattern := "ascending",
      description := "Gradually brightening melody symbolizing new beginnings" }),
   ("night",
    { name := "🌙 Peaceful Night", scale := "pentatonic", progression := "peaceful",
      rhythm := "slow", tempo := 800, dynamics := "whisper", pattern := "gentle",
      description := "Calm, soothing notes creating tranquil nighttime ambiance" }),
   ("joy",
    { name := "😊 Pure Joy", scale := "major", progression := "happy",
      rhythm := "fast", tempo := 300, dynamics := "bright", pattern := "jumping",
      description := "Exuberant, uplifting melody full of happiness" }),
   ("sadness",
    { name := "😢 Deep Sadness", scale := "minor", progression := "sad",
      rhythm := "slow", tempo := 900, dynamics := "soft", pattern := "descending",
      description := "Deeply emotional, sorrowful melody with heavy heart" }),
   ("romantic",
    { name := "💕 Romantic Love", scale := "major", progression := "romantic",
      rhythm := "moderate", tempo := 500, dynamics := "warm", pattern := "flowing",
      description := "Tender, passionate melody expressing deep affection" }),
   ("epic",
    { name := "⚔️ Epic Adventure", scale := "major", progression := "epic",
      rhythm := "syncopated", tempo := 400, dynamics := "powerful", pattern := "heroic",
      description := "Grand, heroic composition with powerful progressions" })]

/-- The keyword table of `AIComposer.analyzeMood`, in source scan order. -/
def moodKeywords : List (String × List String) :=
  [("spring", ["spring", "bloom", "flower", "fresh", "renewal"]),
   ("summer", ["summer", "sun", "bright", "warm", "vibrant"]),
   ("autumn", ["autumn", "fall", "melancholy", "nostalgic", "leaves"]),
   ("winter", ["winter", "snow", "cold", "serene", "quiet"]),
   ("rain", ["rain", "drizzle", "wet", "drops"]),
   ("storm", ["storm", "thunder", "lightning", "intense", "dramatic"]),
   ("sunrise", ["sunrise", "dawn", "morning", "hope", "beginning"]),
   ("night", ["night", "evening", "dark", "peaceful", "calm"]),
   ("joy", ["joy", "happy", "cheerful", "excited", "celebration"]),
   ("sadness", ["sad", "sorrow", "grief", "lonely", "depressed"]),
   ("romantic", ["love", "romantic", "passion", "tender", "affection"]),
   ("epic", ["epic", "heroic", "grand", "adventure", "battle"])]

/-- Does `text` start with `pat`? (character lists) -/
def startsWithChars : List Char → List Char → Bool
  | [], _ => true
  | _ :: _, [] => false
  | a :: ps, b :: ts => a == b && startsWithChars ps ts

/-- Substring containment, JS `String.prototype.includes`. -/
def containsSub (text pat : List Char) : Bool :=
  match text with
  | [] => pat.isEmpty
  | _ :: rest => startsWithChars pat text || containsSub rest pat

/-- JS `text.includes(word)` on Lean strings. -/
def strContains (text word : String) : Bool :=
  containsSub text.data word.data

/-- JS `String.prototype.toLowerCase` on the ASCII inputs the keyword table
uses (`Char.toLower` maps A–Z to a–z and fixes everything else), written over
the character list so that the kernel can evaluate it. -/
def lowerString (s : String) : String :=
  String.mk (s.data.map Char.toLower)

/-- The per-mood score of `analyzeMood`:
`words.filter(word => text.includes(word)).length`. -/
def moodScore (text : String) (entry : String × List String) : Nat :=
  (entry.2.filter (fun w => strContains text w)).length

/-- The loop body of `analyzeMood`: keep the incumbent unless this mood's
score strictly exceeds the running maximum. -/
def moodStep (text : String) (best : String × Nat) (entry : String × List String) :
    String × Nat :=
  if best.2 < moodScore text entry then (entry.1, moodScore text entry) else best

/-- `AIComposer.analyzeMood`: lowercase the input, scan the keyword table in
order keeping the first strict improvement, starting from
`bestMatch = "peaceful"`, `maxScore = 0`. -/
def analyzeMood (moodText : String) : String :=
  (moodKeywords.foldl (moodStep (lowerString moodText)) ("peaceful", 0)).1

/-- The maximum keyword-hit count over a mood table. -/
def maxMoodScore (text : String) (l : List (String × List String)) : Nat :=
  (l.map (moodScore text)).foldr max 0

/-- Modelled from the spec's words (§4.3 `analyzeMood`), for refinement
comparison only: "selects the mood with the highest keyword-hit count; ties
keep the first mood reaching the max (stable scan order over the mood table);
if no keyword matches at all (max score 0), default to a fixed fallback
mood". -/
def specBestMood (moodText : String) : String :=
  if maxMoodScore (lowerString moodText) moodKeywords = 0 then "peaceful"
  else
    match moodKeywords.find?
        (fun e => moodScore (lowerString moodText) e == maxMoodScore (lowerString moodText) moodKeywords) with
    | some e => e.1
    | none => "peaceful"

/-- All per-mood scores for a given input, in table order (for stating the
concrete tie scenario). -/
def moodScoresList (moodText : String) : List (String × Nat) :=
  moodKeywords.map (fun e => (e.1, moodScore (lowerString moodText) e))

/-- The `gentle`/`flowing` random-walk loop of `generateMelody`: push the note
at the current index, then move ±1 (up when the draw exceeds 0.5) and clamp
into `[0, scale.length − 1]`. -/
def gentleWalk (rng : Nat → ℚ) (scale : List String) : Nat → Nat → Int → List String
  | 0, _, _ => []
  | fuel + 1, i, current =>
      scale.getD current.toNat "" ::
        gentleWalk rng scale fuel (i + 1)
          (max 0 (min ((scale.length : Int) - 1)
            (current + (if rng i > 1/2 then 1 else -1))))

/-- The `switch (pattern)` body of `AIComposer.generateMelody`, after the
scale lookup; `rng i` is the value of the i-th `Math.random()` call of the
generation loop.  Out-of-bounds JS indexing yields `undefined`, modelled by
the `getD` default "". -/
def generateMelodyFromScale (rng : Nat → ℚ) (pattern : String) (scale : List String) :
    List String :=
  if pattern = "ascending" then
    (List.range 8).map (fun i => scale.getD (min i (scale.length - 1)) "")
  else if pattern = "descending" then
    ((List.range 8).reverse).map (fun i => scale.getD (min i (scale.length - 1)) "")
  else if pattern = "playful" then
    (List.range 8).map (fun (i : Nat) =>
      scale.getD
        (max 0 (min ((scale.length : Int) - 1) ((i : Int) + (⌊rng i * 4⌋ - 2)))).toNat "")
  else if pattern = "cascading" then
    (List.range 8).map (fun i => scale.getD (⌊rng i * (scale.length : ℚ)⌋).toNat "")
  else if pattern = "chaotic" then
    (List.range 8).map (fun i => scale.getD (⌊rng i * (scale.length : ℚ)⌋).toNat "")
  else if pattern = "gentle" ∨ pattern = "flowing" then
    gentleWalk rng scale 8 0 ((scale.length / 2 : Nat) : Int)
  else if pattern = "jumping" then
    (List.range 8).map (fun i => scale.getD (⌊rng i * (scale.length : ℚ)⌋).toNat "")
  else if pattern = "heroic" then
    [scale.getD 0 "", scale.getD 2 "", scale.getD 4 "", scale.getD 7 "",
     if 9 < scale.length then scale.getD 9 "" else scale.getD 7 "",
     scale.getD 7 "", scale.getD 4 "", scale.getD 2 "", scale.getD 0 ""]
  else if pattern = "sparse" then
    (List.range 4).map (fun i => scale.getD (i * 2) "")
  else
    (List.range 8).map (fun i => scale.getD (⌊rng i * (scale.length : ℚ)⌋).toNat "")

/-- `AIComposer.generateMelody`: look the scale up by name, then generate by
pattern tag. -/
def generateMelody (rng : Nat → ℚ) (config : MoodConfig) : List String :=
  generateMelodyFromScale rng config.pattern ((lookupKey config.scale musicScales).getD [])

/-- `AIComposer.currentComposition`. -/
structure PianoComposition where
  melody : List String
  chords : List (List String)
  rhythmPattern : List Nat
  tempo : Nat
deriving DecidableEq

/-- The three cursor variables of `playComposition`. -/
structure Cursors where
  melodyIndex : Nat
  chordIndex : Nat
  rhythmIndex : Nat
deriving DecidableEq

/-- What one tick of `playNextNote` does: the immediate melody press, the
chord presses scheduled ~50 ms later, the melody release scheduled after
`duration * 0.8` ms, and the next tick scheduled after `duration` ms. -/
inductive Scheduled where
  | pressNow (note : String)
  | pressDelayed (delayMs : Nat) (note : String)
  | releaseDelayed (delayMs : ℚ) (note : String)
  | nextTick (delayMs : Nat)
deriving DecidableEq

/-- The press/schedule effects of one execution of `playNextNote`'s body,
where `q` is this tick's `Math.random()` draw (the chord fires iff `q > 0.7`). -/
def tickOutputs (comp : PianoComposition) (cur : Cursors) (q : ℚ) : List Scheduled :=
  let note := comp.melody.getD cur.melodyIndex ""
  let chordPart :=
    if q > 7/10 then
      ((comp.chords.getD cur.chordIndex []).filter (fun c => !(c == note))).map
        (fun c => Scheduled.pressDelayed 50 c)
    else []
  let duration := comp.rhythmPattern.getD cur.rhythmIndex 0
  Scheduled.pressNow note ::
    (chordPart ++
      [Scheduled.releaseDelayed ((duration : ℚ) * (8/10)) note, Scheduled.nextTick duration])

/-- Cursor advancement of one `playNextNote` tick: melody and rhythm cursors
always advance modulo their lengths; the chord cursor advances only when the
chord fired (`q > 0.7`). -/
def tickNext (comp : PianoComposition) (cur : Cursors) (q : ℚ) : Cursors :=
  { melodyIndex := (cur.melodyIndex + 1) % comp.melody.length,
    chordIndex :=
      if q > 7/10 then (cur.chordIndex + 1) % comp.chords.length else cur.chordIndex,
    rhythmIndex := (cur.rhythmIndex + 1) % comp.rhythmPattern.length }

/-- State of an `AIComposer` instance.  `pending` is the set of not-yet-fired
`setTimeout` handles created for the next-tick callback (the handles the
source stores in `this.intervalId`); `nextTimer` generates fresh handles
(browsers return positive integers, so it starts at 1 and `if (this.intervalId)`
truthiness is `Option.isSome`).  `randCursor` indexes the ambient
`Math.random()` stream. -/
structure ComposerState where
  isPlaying : Bool
  intervalId : Option Nat
  currentMood : Option MoodConfig
  currentComposition : Option PianoComposition
  cursors : Cursors
  pending : List Nat
  nextTimer : Nat
  randCursor : Nat
deriving DecidableEq

/-- The composer state built by the `AIComposer` constructor. -/
def composerInit : ComposerState :=
  { isPlaying := false, intervalId := none, currentMood := none,
    currentComposition := none, cursors := ⟨0, 0, 0⟩, pending := [],
    nextTimer := 1, randCursor := 0 }

/-- `AIComposer.stop`: clear the playing flag, cancel the pending next-tick
timer (if any), drop the handle and the mood. -/
def stopOp (st : ComposerState) : ComposerState :=
  let st1 := { st with isPlaying := false }
  let st2 :=
    match st1.intervalId with
    | some id => { st1 with pending := st1.pending.erase id, intervalId := none }
    | none => st1
  { st2 with currentMood := none }

/-- One execution of `playNextNote` inside the state machine: if the guard
`!this.isPlaying` passes, do nothing; otherwise consume one random draw,
advance the cursors, and schedule the next tick as a fresh pending timer
stored in `intervalId`.  The second component is the tick's press/schedule
effects. -/
def tickBody (rng : Nat → ℚ) (st : ComposerState) : ComposerState × List Scheduled :=
  if st.isPlaying then
    let comp := st.currentComposition.getD ⟨[], [], [], 0⟩
    let q := rng st.randCursor
    ({ st with cursors := tickNext comp st.cursors q,
               randCursor := st.randCursor + 1,
               pending := st.nextTimer :: st.pending,
               intervalId := some st.nextTimer,
               nextTimer := st.nextTimer + 1 },
     tickOutputs comp st.cursors q)
  else (st, [])

/-- The tail of `AIComposer.compose` once the mood configuration was found:
store mood and composition (melody generated from a fresh slice of the random
stream — `generateMelody` makes at most 8 draws), set the playing flag, reset
the cursors (`playComposition`'s local variables) and run the first tick
synchronously (`playComposition` calls `playNextNote()` directly). -/
def startComposition (rng : Nat → ℚ) (config : MoodConfig) (st : ComposerState) :
    ComposerState :=
  (tickBody rng
    { st with
      currentMood := some config, isPlaying := true,
      currentComposition := some
        { melody := generateMelody (fun i => rng (st.randCursor + i)) config,
          chords := (lookupKey config.progression chordProgressions).getD [],
          rhythmPattern := (lookupKey config.rhythm rhythms).getD [],
          tempo := config.tempo },
      randCursor := st.randCursor + 8,
      cursors := ⟨0, 0, 0⟩ }).1

/-- `AIComposer.compose`: the source stops first if already composing, then
looks the mood key up (unknown keys are dropped, but the stop already
happened), then starts the new composition.  Stopping is pure, so applying
the stop-if-playing step inside each match arm is the same function. -/
def composeOp (rng : Nat → ℚ) (moodKey : String) (st : ComposerState) : ComposerState :=
  match lookupKey moodKey moodConfigs with
  | none => if st.isPlaying then stopOp st else st
  | some config => startComposition rng config (if st.isPlaying then stopOp st else st)

/-- A pending next-tick timer with handle `id` fires: the handle is spent,
then the `playNextNote` callback runs. -/
def tickFire (rng : Nat → ℚ) (id : Nat) (st : ComposerState) : ComposerState :=
  if id ∈ st.pending then
    (tickBody rng { st with pending := st.pending.erase id }).1
  else st

/-- Events driving an `AIComposer`. -/
inductive ComposerOp where
  | compose (moodKey : String)
  | stop
  | tick (id : Nat)
deriving DecidableEq

/-- One composer transition. -/
def composerStep (rng : Nat → ℚ) (st : ComposerState) : ComposerOp → ComposerState
  | .compose m => composeOp rng m st
  | .stop => stopOp st
  | .tick id => tickFire rng id st

/-- Run a sequence of composer events from the constructor state. -/
def runComposer (rng : Nat → ℚ) (ops : List ComposerOp) : ComposerState :=
  ops.foldl (composerStep rng) composerInit

/-- Timer bookkeeping invariant of the composer: the pending next-tick timers
are exactly the handle stored in `intervalId`; a stopped composer holds no
handle; and every stored handle was allocated before `nextTimer`. -/
def TimerInv (st : ComposerState) : Prop :=
  (st.pending = (match st.intervalId with | some i => [i] | none => [])) ∧
  (st.isPlaying = false → st.intervalId = none) ∧
  (∀ i, st.intervalId = some i → i < st.nextTimer)

/-! ## Association-list lemmas -/

theorem lookupKey_eraseKey_self (k : String) :
    ∀ l : List (String × Nat), lookupKey k (eraseKey k l) = none := by
  intro l
  induction l with
  | nil => rfl
  | cons p rest ih =>
    obtain ⟨a, v⟩ := p
    by_cases h : a = k
    · simp [eraseKey, h, ih]
    · simp [eraseKey, lookupKey, h, ih]

theorem lookupKey_eraseKey_none (k m : String) :
    ∀ l : List (String × Nat), lookupKey k l = none →
      lookupKey k (eraseKey m l) = none := by
  intro l
  induction l with
  | nil => intro _; rfl
  | cons p rest ih =>
    obtain ⟨a, v⟩ := p
    intro h
    by_cases hak : a = k
    · simp [lookupKey, hak] at h
    · simp only [lookupKey, if_neg hak] at h
      by_cases ham : a = m
      · simp [eraseKey, ham, ih h]
      · simp [eraseKey, ham, lookupKey, hak, ih h]

theorem lookupKey_setAssoc_ne (k m : String) (v : Nat) (hmk : m ≠ k) :
    ∀ l : List (String × Nat), lookupKey k (setAssoc m v l) = lookupKey k l := by
  intro l
  induction l with
  | nil => simp [setAssoc, lookupKey, hmk]
  | cons p rest ih =>
    obtain ⟨a, w⟩ := p
    by_cases ham : a = m
    · subst ham
      simp [setAssoc, lookupKey, hmk]
    · by_cases hak : a = k
      · subst hak
        simp [setAssoc, lookupKey, ham]
      · simp [setAssoc, ham, lookupKey, hak, ih]

/-! ## Voice-manager lemmas -/

theorem flushStep_sustainActive (n : String) (st : PianoState) :
    (flushStep n st).sustainActive = st.sustainActive := by
  unfold flushStep
  split <;> rfl

theorem flushStep_sustainedNotes (n : String) (st : PianoState) :
    (flushStep n st).sustainedNotes = st.sustainedNotes := by
  unfold flushStep
  split <;> rfl

theorem flushStep_lookup_self (n : String) (st : PianoState) :
    lookupKey n (flushStep n st).activeNotes = none := by
  unfold flushStep
  split
  · exact lookupKey_eraseKey_self n st.activeNotes
  · next heq => exact heq

theorem flushStep_lookup_none (k n : String) (st : PianoState)
    (h : lookupKey k st.activeNotes = none) :
    lookupKey k (flushStep n st).activeNotes = none := by
  unfold flushStep
  split
  · exact lookupKey_eraseKey_none k n st.activeNotes h
  · exact h

theorem flushSustained_sustainActive :
    ∀ (l : List String) (st : PianoState),
      (flushSustained l st).sustainActive = st.sustainActive := by
  intro l
  induction l with
  | nil => intro st; rfl
  | cons n rest ih =>
    intro st
    simp only [flushSustained]
    rw [ih, flushStep_sustainActive]

theorem flushSustained_lookup_none (k : String) :
    ∀ (l : List String) (st : PianoState), lookupKey k st.activeNotes = none →
      lookupKey k (flushSustained l st).activeNotes = none := by
  intro l
  induction l with
  | nil => exact fun _ h => h
  | cons n rest ih =>
    intro st h
    simp only [flushSustained]
    exact ih _ (flushStep_lookup_none k n st h)

theorem flushSustained_lookup_mem (k : String) :
    ∀ (l : List String) (st : PianoState), k ∈ l →
      lookupKey k (flushSustained l st).activeNotes = none := by
  intro l
  induction l with
  | nil => intro st h; cases h
  | cons n rest ih =>
    intro st h
    simp only [flushSustained]
    rcases List.mem_cons.mp h with h1 | h2
    · subst h1
      exact flushSustained_lookup_none k rest _ (flushStep_lookup_self k st)
    · exact ih _ h2

theorem stopNote_sustainActive (n : String) (st : PianoState) :
    (stopNote n st).sustainActive = st.sustainActive := by
  unfold stopNote
  split
  · rfl
  · exact flushStep_sustainActive n st

theorem stopNote_sustainedNotes_of_false (n : String) (st : PianoState)
    (h : st.sustainActive = false) :
    (stopNote n st).sustainedNotes = st.sustainedNotes := by
  simp [stopNote, h, flushStep_sustainedNotes]

theorem playNote_sustainActive (n : String) (st : PianoState) :
    (playNote n st).sustainActive = st.sustainActive := by
  unfold playNote
  split
  · rfl
  · by_cases h : (lookupKey n st.activeNotes).isSome
    · simp [h, stopNote_sustainActive]
    · simp [h]

theorem playNote_sustainedNotes_of_false (n : String) (st : PianoState)
    (h : st.sustainActive = false) :
    (playNote n st).sustainedNotes = st.sustainedNotes := by
  unfold playNote
  split
  · rfl
  · by_cases hs : (lookupKey n st.activeNotes).isSome
    · simp [hs, stopNote_sustainedNotes_of_false n st h]
    · simp [hs]

theorem setSustain_false_sustainedNotes (st : PianoState) :
    (setSustain false st).sustainedNotes = [] := by
  simp [setSustain]

theorem setSustain_false_flushes (st : PianoState) (n : String)
    (h : n ∈ st.sustainedNotes) :
    lookupKey n (setSustain false st).activeNotes = none := by
  simp only [setSustain, Bool.false_eq_true, if_false]
  exact flushSustained_lookup_mem n st.sustainedNotes _ h

theorem sustainInv_step (st : PianoState) (op : PianoOp) (h : SustainInv st) :
    SustainInv (pianoStep st op) := by
  cases op with
  | press n =>
    intro hfalse
    have hst : st.sustainActive = false := (playNote_sustainActive n st).symm.trans hfalse
    exact (playNote_sustainedNotes_of_false n st hst).trans (h hst)
  | release n =>
    intro hfalse
    have hst : st.sustainActive = false := (stopNote_sustainActive n st).symm.trans hfalse
    exact (stopNote_sustainedNotes_of_false n st hst).trans (h hst)
  | pedal b =>
    cases b with
    | true => intro hfalse; simp [pianoStep, setSustain] at hfalse
    | false => intro _; exact setSustain_false_sustainedNotes st

theorem sustainInv_run (ops : List PianoOp) : SustainInv (runPiano ops) := by
  suffices h : ∀ (l : List PianoOp) (st : PianoState), SustainInv st →
      SustainInv (l.foldl pianoStep st) from h ops pianoInit (fun _ => rfl)
  intro l
  induction l with
  | nil => exact fun _ h => h
  | cons op rest ih => exact fun st h => ih _ (sustainInv_step st op h)

/-- C1 (code_bug evaluation): re-triggering a note while sustain is active
leaves two live voices for it.  With sustain ON, `playNote "C4"` twice from
the fresh engine leaves voices 0 and 1 both live (voice 0's `stop()` is never
invoked — `stopNote` merely put "C4" into the held-set before the map entry
was overwritten), while the map holds only voice 1; with sustain OFF the same
double press correctly leaves exactly the one live voice 1.  This contradicts
the claim's "exactly one live Voice … regardless of whether sustain is
active". -/
theorem c1_ghost_voice_on_retrigger_under_sustain :
    liveVoices (playNote "C4" (playNote "C4" (setSustain true pianoInit))) "C4" = [0, 1] ∧
    lookupKey "C4"
        (playNote "C4" (playNote "C4" (setSustain true pianoInit))).activeNotes = some 1 ∧
    (playNote "C4" (playNote "C4" (setSustain true pianoInit))).stoppedVoices = [] ∧
    (playNote "C4" (playNote "C4" (setSustain true pianoInit))).sustainedNotes = ["C4"] ∧
    liveVoices (playNote "C4" (playNote "C4" pianoInit)) "C4" = [1] := by
  decide

/-- C2: along every press/release/pedal sequence, the held-set is nonempty
only while sustain is active; and `setSustain(false)` — one atomic step of
the model — empties the held-set and removes every held note's voice from the
active map. -/
theorem c2_sustain_flush :
    (∀ ops : List PianoOp, (runPiano ops).sustainActive = false →
        (runPiano ops).sustainedNotes = []) ∧
    (∀ st : PianoState, (setSustain false st).sustainedNotes = [] ∧
        ∀ n ∈ st.sustainedNotes, lookupKey n (setSustain false st).activeNotes = none) :=
  ⟨fun ops => sustainInv_run ops,
   fun st => ⟨setSustain_false_sustainedNotes st,
              fun n hn => setSustain_false_flushes st n hn⟩⟩

/-- Witness for C2: sustain on, press C4, release C4 (held), then pedal off:
the held-set is empty and C4 is gone from the active map. -/
theorem c2_sustain_flush_witness :
    (runPiano [PianoOp.pedal true, PianoOp.press "C4", PianoOp.release "C4",
        PianoOp.pedal false]).sustainedNotes = [] ∧
    (setSustain false (runPiano [PianoOp.pedal true, PianoOp.press "C4",
        PianoOp.release "C4"])).sustainedNotes = [] ∧
    lookupKey "C4" (setSustain false (runPiano [PianoOp.pedal true, PianoOp.press "C4",
        PianoOp.release "C4"])).activeNotes = none :=
  ⟨c2_sustain_flush.1 _ (by decide),
   (c2_sustain_flush.2 _).1,
   (c2_sustain_flush.2 _).2 "C4" (by decide)⟩

/-- C6 (amended): for a note identifier outside the frequency table,
`playNote` is a complete no-op; `stopNote` with sustain inactive is a
complete no-op (unknown notes are never in the active map); but `stopNote`
with sustain ACTIVE adds the unknown identifier to the held-set — the
active-voice map still never contains an unknown note along any event
sequence, and nothing errors. -/
theorem c6_unknown_note_amended (u : String)
    (hu : lookupKey u noteFrequencies = none) :
    (∀ st : PianoState, playNote u st = st) ∧
    (∀ st : PianoState, st.sustainActive = false → lookupKey u st.activeNotes = none →
        stopNote u st = st) ∧
    (∀ st : PianoState, st.sustainActive = true →
        stopNote u st = { st with sustainedNotes := insertNoteSet u st.sustainedNotes }) ∧
    (∀ ops : List PianoOp, lookupKey u (runPiano ops).activeNotes = none) := by
  refine ⟨?_, ?_, ?_, ?_⟩
  · intro st
    simp [playNote, hu]
  · intro st h1 h2
    simp [stopNote, h1, flushStep, h2]
  · intro st h
    simp [stopNote, h]
  · have step : ∀ (st : PianoState) (op : PianoOp), lookupKey u st.activeNotes = none →
        lookupKey u (pianoStep st op).activeNotes = none := by
      intro st op h
      cases op with
      | press n =>
        by_cases hn : n = u
        · subst hn
          simp only [pianoStep]
          rw [show playNote n st = st from by simp [playNote, hu]]
          exact h
        · simp only [pianoStep]
          unfold playNote
          cases hf : lookupKey n noteFrequencies with
          | none => exact h
          | some f =>
            have hstop : lookupKey u (stopNote n st).activeNotes = none := by
              unfold stopNote
              split
              · exact h
              · exact flushStep_lookup_none u n st h
            by_cases hs : (lookupKey n st.activeNotes).isSome
            · simp only [hs, if_true]
              exact (lookupKey_setAssoc_ne u n _ hn _).trans hstop
            · simp only [hs, if_false]
              exact (lookupKey_setAssoc_ne u n _ hn _).trans h
      | release n =>
        simp only [pianoStep]
        unfold stopNote
        split
        · exact h
        · exact flushStep_lookup_none u n st h
      | pedal b =>
        simp only [pianoStep]
        cases b with
        | true => exact h
        | false =>
          simp only [setSustain, Bool.false_eq_true, if_false]
          exact flushSustained_lookup_none u st.sustainedNotes _ h
    intro ops
    suffices hl : ∀ (l : List PianoOp) (st : PianoState), lookupKey u st.activeNotes = none →
        lookupKey u (l.foldl pianoStep st).activeNotes = none from hl ops pianoInit rfl
    intro l
    induction l with
    | nil => exact fun _ h => h
    | cons op rest ih => exact fun st h => ih _ (step st op h)

/-- Witness for C6 (amended) at the unknown identifier "Z9". -/
theorem c6_unknown_note_witness :
    playNote "Z9" pianoInit = pianoInit ∧
    stopNote "Z9" pianoInit = pianoInit ∧
    lookupKey "Z9" (runPiano [PianoOp.press "C4", PianoOp.release "C4"]).activeNotes
      = none :=
  ⟨(c6_unknown_note_amended "Z9" (by decide)).1 pianoInit,
   (c6_unknown_note_amended "Z9" (by decide)).2.1 pianoInit rfl (by decide),
   (c6_unknown_note_amended "Z9" (by decide)).2.2.2 _⟩

/-- Counterexample for C6 as stated: with sustain active, releasing the
unknown note "Z9" changes the held-set (from [] to ["Z9"]), so release of an
unknown identifier is NOT a state-preserving no-op in every state. -/
theorem c6_unknown_note_counterexample :
    lookupKey "Z9" noteFrequencies = none ∧
    (setSustain true pianoInit).sustainedNotes = [] ∧
    (stopNote "Z9" (setSustain true pianoInit)).sustainedNotes = ["Z9"] := by
  decide

/-! ## Playback lemmas -/

theorem playbackGo_map_snd (anchor : Nat) :
    ∀ (evs : List RecordedEvent) (now : Nat),
      (playbackGo anchor now evs).map Prod.snd = evs := by
  intro evs
  induction evs with
  | nil => intro _; rfl
  | cons e rest ih =>
    intro now
    simp only [playbackGo, List.map_cons, ih]

theorem playbackGo_fire_ge (anchor : Nat) :
    ∀ (evs : List RecordedEvent) (now : Nat),
      ∀ te ∈ playbackGo anchor now evs, anchor + te.2.timestamp ≤ te.1 := by
  intro evs
  induction evs with
  | nil => intro _ te h; cases h
  | cons e rest ih =>
    intro now te h
    simp only [playbackGo] at h
    rcases List.mem_cons.mp h with h1 | h2
    · subst h1; exact le_max_right _ _
    · exact ih _ te h2

theorem playbackGo_chain (anchor : Nat) :
    ∀ (evs : List RecordedEvent) (now : Nat),
      List.Chain' (fun x y => x.1 ≤ y.1) (playbackGo anchor now evs) := by
  intro evs
  induction evs with
  | nil => intro _; simp [playbackGo]
  | cons e rest ih =>
    intro now
    simp only [playbackGo]
    refine List.chain'_cons'.mpr ⟨?_, ih _⟩
    intro y hy
    cases rest with
    | nil => simp [playbackGo] at hy
    | cons e2 r2 =>
      simp only [playbackGo, List.head?_cons, Option.mem_def, Option.some.injEq] at hy
      subst hy
      exact le_max_left _ _

/-- C3: the playback contract.  An empty recording places no sink call;
otherwise every recorded event is dispatched, in recorded (chronological)
order, at an instant no earlier than the playback anchor plus its recorded
offset, with dispatch instants non-decreasing; press events become
`sink.press`, release events `sink.release`.  In particular the recording
[(C4,press,0), (C4,release,500)] replays as press at the anchor and release
exactly 500 ms later. -/
theorem c3_playback_contract (events : List RecordedEvent) (anchor : Nat) :
    playbackCalls [] anchor = [] ∧
    (playbackTrace events anchor).map Prod.snd = events ∧
    (∀ te ∈ playbackTrace events anchor, anchor + te.2.timestamp ≤ te.1) ∧
    List.Chain' (fun x y => x.1 ≤ y.1) (playbackTrace events anchor) ∧
    playbackCalls [⟨"C4", 0, true⟩, ⟨"C4", 500, false⟩] anchor =
      [(anchor, SinkCall.press "C4"), (anchor + 500, SinkCall.release "C4")] := by
  refine ⟨rfl, playbackGo_map_snd anchor events anchor,
    fun te h => playbackGo_fire_ge anchor events anchor te h,
    playbackGo_chain anchor events anchor, ?_⟩
  simp [playbackCalls, playbackTrace, playbackGo]

/-- Witness for C3 at anchor 1000: the concrete two-event recording is
dispatched at instants 1000 and 1500, and the dispatch instant of the release
is no earlier than anchor + 500. -/
theorem c3_playback_witness :
    playbackCalls [RecordedEvent.mk "C4" 0 true, RecordedEvent.mk "C4" 500 false] 1000 =
      [(1000, SinkCall.press "C4"), (1000 + 500, SinkCall.release "C4")] ∧
    1000 + 500 ≤ 1500 :=
  ⟨(c3_playback_contract [] 1000).2.2.2.2,
   (c3_playback_contract [RecordedEvent.mk "C4" 0 true, RecordedEvent.mk "C4" 500 false]
      1000).2.2.1 (1500, RecordedEvent.mk "C4" 500 false) (by decide)⟩

/-! ## analyzeMood: the fold keeps the first mood reaching the maximum -/

theorem maxMoodScore_cons (text : String) (e : String × List String)
    (l : List (String × List String)) :
    maxMoodScore text (e :: l) = max (moodScore text e) (maxMoodScore text l) := by
  simp [maxMoodScore]

theorem moodFold_of_le (text : String) :
    ∀ (l : List (String × List String)) (d : String) (a : Nat),
      maxMoodScore text l ≤ a → l.foldl (moodStep text) (d, a) = (d, a) := by
  intro l
  induction l with
  | nil => intro d a _; rfl
  | cons e rest ih =>
    intro d a h
    rw [maxMoodScore_cons] at h
    have h1 : moodScore text e ≤ a := le_trans (le_max_left _ _) h
    have h2 : maxMoodScore text rest ≤ a := le_trans (le_max_right _ _) h
    simp only [List.foldl_cons]
    rw [show moodStep text (d, a) e = (d, a) from by simp [moodStep, Nat.not_lt.mpr h1]]
    exact ih d a h2

theorem moodFold_of_lt (text : String) :
    ∀ (l : List (String × List String)) (d : String) (a : Nat),
      a < maxMoodScore text l →
      ∃ e, e ∈ l ∧ moodScore text e = maxMoodScore text l ∧
        l.find? (fun e2 => moodScore text e2 == maxMoodScore text l) = some e ∧
        l.foldl (moodStep text) (d, a) = (e.1, maxMoodScore text l) := by
  intro l
  induction l with
  | nil =>
    intro d a h
    simp [maxMoodScore] at h
  | cons e rest ih =>
    intro d a h
    rw [maxMoodScore_cons] at h
    by_cases hstep : a < moodScore text e
    · by_cases hcmp : maxMoodScore text rest ≤ moodScore text e
      · -- the head attains the overall maximum
        have hM : maxMoodScore text (e :: rest) = moodScore text e := by
          rw [maxMoodScore_cons]; exact max_eq_left hcmp
        refine ⟨e, List.mem_cons_self e rest, hM.symm, ?_, ?_⟩
        · rw [hM]
          exact List.find?_cons_of_pos _ (by simp)
        · rw [hM]
          simp only [List.foldl_cons]
          rw [show moodStep text (d, a) e = (e.1, moodScore text e) from by
            simp [moodStep, hstep]]
          exact moodFold_of_le text rest e.1 (moodScore text e) hcmp
      · -- a deeper mood strictly exceeds the head's score
        have hlt : moodScore text e < maxMoodScore text rest := Nat.lt_of_not_le hcmp
        have hM : maxMoodScore text (e :: rest) = maxMoodScore text rest := by
          rw [maxMoodScore_cons]; exact max_eq_right (le_of_lt hlt)
        obtain ⟨e2, hmem, hsc, hfind, hfold⟩ := ih e.1 (moodScore text e) hlt
        refine ⟨e2, List.mem_cons_of_mem e hmem, hM ▸ hsc, ?_, ?_⟩
        · rw [hM]
          rw [List.find?_cons_of_neg _
            (by simp only [beq_iff_eq]; exact Nat.ne_of_lt hlt)]
          exact hfind
        · rw [hM]
          simp only [List.foldl_cons]
          rw [show moodStep text (d, a) e = (e.1, moodScore text e) from by
            simp [moodStep, hstep]]
          exact hfold
    · -- the head does not improve on the incumbent
      have hs : moodScore text e ≤ a := Nat.not_lt.mp hstep
      have hlt : a < maxMoodScore text rest := (lt_max_iff.mp h).resolve_left hstep
      have hM : maxMoodScore text (e :: rest) = maxMoodScore text rest := by
        rw [maxMoodScore_cons]; exact max_eq_right (le_trans hs (le_of_lt hlt))
      obtain ⟨e2, hmem, hsc, hfind, hfold⟩ := ih d a hlt
      refine ⟨e2, List.mem_cons_of_mem e hmem, hM ▸ hsc, ?_, ?_⟩
      · rw [hM]
        rw [List.find?_cons_of_neg _ (by simp only [beq_iff_eq]; omega)]
        exact hfind
      · rw [hM]
        simp only [List.foldl_cons]
        rw [show moodStep text (d, a) e = (d, a) from by simp [moodStep, hstep]]
        exact hfold

set_option maxHeartbeats 1000000 in
/-- C7: `analyzeMood` is a deterministic pure function: it equals, on every
input, the spec-side selector (first mood in table-scan order attaining the
maximum keyword-hit count over the lowercased text, with the fixed fallback
"peaceful" when the maximum is 0); and on "I feel the rain and thunder" the
moods rain and storm tie at score 1 with every other mood at 0, so the one
scanned first in table order, "rain", is returned. -/
theorem c7_analyzeMood_contract :
    (∀ t : String, analyzeMood t = specBestMood t) ∧
    analyzeMood "I feel the rain and thunder" = "rain" ∧
    moodScoresList "I feel the rain and thunder" =
      [("spring", 0), ("summer", 0), ("autumn", 0), ("winter", 0), ("rain", 1),
       ("storm", 1), ("sunrise", 0), ("night", 0), ("joy", 0), ("sadness", 0),
       ("romantic", 0), ("epic", 0)] := by
  refine ⟨?_, by decide, by decide⟩
  intro t
  by_cases h : maxMoodScore (lowerString t) moodKeywords = 0
  · unfold analyzeMood specBestMood
    rw [moodFold_of_le (lowerString t) moodKeywords "peaceful" 0 (le_of_eq h), if_pos h]
  · obtain ⟨e, hmem, hsc, hfind, hfold⟩ :=
      moodFold_of_lt (lowerString t) moodKeywords "peaceful" 0 (Nat.pos_of_ne_zero h)
    unfold analyzeMood specBestMood
    rw [hfold, if_neg h, hfind]

/-! ## Melody generation: bounds and fixed patterns -/

theorem getD_mem (l : List String) : ∀ i : Nat, i < l.length → l.getD i "" ∈ l := by
  induction l with
  | nil => intro i h; simp at h
  | cons x xs ih =>
    intro i h
    cases i with
    | zero => simp [List.getD]
    | succ j =>
      simp only [List.getD_cons_succ]
      exact List.mem_cons_of_mem x (ih j (by simpa using h))

theorem floorMul_toNat_lt (q : ℚ) (n : Nat) (h0 : 0 ≤ q) (h1 : q < 1) (hn : 0 < n) :
    (⌊q * (n : ℚ)⌋).toNat < n := by
  have hf : ⌊q * (n : ℚ)⌋ < (n : ℤ) := by
    rw [Int.floor_lt]
    push_cast
    have h := mul_lt_mul_of_pos_right h1 (show (0 : ℚ) < (n : ℚ) by exact_mod_cast hn)
    simpa using h
  have hge : (0 : ℤ) ≤ ⌊q * (n : ℚ)⌋ :=
    Int.floor_nonneg.mpr (mul_nonneg h0 (by positivity))
  omega

theorem clamp_toNat_lt (len : Nat) (hlen : 0 < len) (x : Int) :
    (max 0 (min ((len : Int) - 1) x)).toNat < len := by
  have h1 : max 0 (min ((len : Int) - 1) x) ≤ (len : Int) - 1 :=
    max_le (by omega) (min_le_left _ _)
  have h2 : (0 : Int) ≤ max 0 (min ((len : Int) - 1) x) := le_max_left _ _
  omega

theorem gentleWalk_mem (rng : Nat → ℚ) (scale : List String) (hlen : 0 < scale.length) :
    ∀ (fuel i : Nat) (current : Int), 0 ≤ current → current < (scale.length : Int) →
      ∀ x ∈ gentleWalk rng scale fuel i current, x ∈ scale := by
  intro fuel
  induction fuel with
  | zero => intro i current _ _ x hx; cases hx
  | succ k ih =>
    intro i current h0 h1 x hx
    simp only [gentleWalk] at hx
    rcases List.mem_cons.mp hx with h | h
    · subst h
      apply getD_mem
      omega
    · refine ih (i + 1) _ (le_max_left _ _) ?_ x h
      have hle : max 0 (min ((scale.length : Int) - 1)
          (current + (if rng i > 1/2 then 1 else -1))) ≤ (scale.length : Int) - 1 :=
        max_le (by omega) (min_le_left _ _)
      omega

set_option maxHeartbeats 3200000 in
theorem generateMelodyFromScale_mem (rng : Nat → ℚ) (pattern : String)
    (scale : List String) (h8 : 8 ≤ scale.length)
    (hq : ∀ n, 0 ≤ rng n ∧ rng n < 1) :
    ∀ x ∈ generateMelodyFromScale rng pattern scale, x ∈ scale := by
  intro x hx
  have hlen : 0 < scale.length := by omega
  unfold generateMelodyFromScale at hx
  split_ifs at hx
  · -- ascending
    simp only [List.mem_map, List.mem_range] at hx
    obtain ⟨i, hi, rfl⟩ := hx
    apply getD_mem
    have := Nat.min_le_right i (scale.length - 1)
    omega
  · -- descending
    simp only [List.mem_map, List.mem_reverse, List.mem_range] at hx
    obtain ⟨i, hi, rfl⟩ := hx
    apply getD_mem
    have := Nat.min_le_right i (scale.length - 1)
    omega
  · -- playful
    simp only [List.mem_map, List.mem_range] at hx
    obtain ⟨i, hi, rfl⟩ := hx
    apply getD_mem
    exact clamp_toNat_lt _ hlen _
  · -- cascading
    simp only [List.mem_map, List.mem_range] at hx
    obtain ⟨i, hi, rfl⟩ := hx
    apply getD_mem
    exact floorMul_toNat_lt (rng i) _ (hq i).1 (hq i).2 hlen
  · -- chaotic
    simp only [List.mem_map, List.mem_range] at hx
    obtain ⟨i, hi, rfl⟩ := hx
    apply getD_mem
    exact floorMul_toNat_lt (rng i) _ (hq i).1 (hq i).2 hlen
  · -- gentle / flowing
    refine gentleWalk_mem rng scale hlen 8 0 _ (by positivity) ?_ x hx
    exact_mod_cast Nat.div_lt_self hlen (by norm_num)
  · -- jumping
    simp only [List.mem_map, List.mem_range] at hx
    obtain ⟨i, hi, rfl⟩ := hx
    apply getD_mem
    exact floorMul_toNat_lt (rng i) _ (hq i).1 (hq i).2 hlen
  · -- heroic, scale[9] defined
    simp only [List.mem_cons, List.not_mem_nil, or_false] at hx
    rcases hx with rfl | rfl | rfl | rfl | rfl | rfl | rfl | rfl | rfl
    all_goals apply getD_mem
    all_goals omega
  · -- heroic, scale[9] undefined: fall back to scale[7]
    simp only [List.mem_cons, List.not_mem_nil, or_false] at hx
    rcases hx with rfl | rfl | rfl | rfl | rfl | rfl | rfl | rfl | rfl
    all_goals apply getD_mem
    all_goals omega
  · -- sparse
    simp only [List.mem_map, List.mem_range] at hx
    obtain ⟨i, hi, rfl⟩ := hx
    apply getD_mem
    omega
  · -- default: random from scale
    simp only [List.mem_map, List.mem_range] at hx
    obtain ⟨i, hi, rfl⟩ := hx
    apply getD_mem
    exact floorMul_toNat_lt (rng i) _ (hq i).1 (hq i).2 hlen

theorem ascendingMap_take (scale : List String) (h8 : 8 ≤ scale.length) :
    (List.range 8).map (fun i => scale.getD (min i (scale.length - 1)) "") =
      scale.take 8 := by
  apply List.ext_getElem
  · simp
    omega
  · intro i h1 h2
    simp only [List.getElem_map, List.getElem_range, List.getElem_take]
    have hi : i < 8 := by simpa using h1
    rw [Nat.min_eq_left (by omega), List.getD_eq_getElem scale "" (by omega)]

/-- C9: the non-random patterns are deterministic, whatever the random stream
draws.  `ascending` on any scale of length ≥ 8 yields scale[0..7] in order
(`List.take 8`), and `sparse` on any 8-note scale yields the 4-element
stride-2 subsequence [scale[0], scale[2], scale[4], scale[6]]. -/
theorem c9_fixed_patterns :
    (∀ (a b c d e f g h : String) (rest : List String) (rng : Nat → ℚ),
      generateMelodyFromScale rng "ascending" (a :: b :: c :: d :: e :: f :: g :: h :: rest) =
        [a, b, c, d, e, f, g, h]) ∧
    (∀ (a b c d e f g h : String) (rng : Nat → ℚ),
      generateMelodyFromScale rng "sparse" [a, b, c, d, e, f, g, h] = [a, c, e, g]) := by
  constructor
  · intro a b c d e f g h rest rng
    unfold generateMelodyFromScale
    rw [if_pos rfl, ascendingMap_take _ (by simp)]
    rfl
  · intro a b c d e f g h rng
    rfl

/-- C10: for every registered mood configuration and every outcome of the
random draws (each in [0,1)), every note of the generated melody is an
element of the configured scale — all indices `generateMelody` reads are in
bounds, covering the clamped random patterns, the heroic scale[9]-or-scale[7]
fallback, and sparse's stride-2 indices. -/
theorem c10_melody_indices_safe :
    ∀ key cfg, (key, cfg) ∈ moodConfigs →
      ∀ rng : Nat → ℚ, (∀ n, 0 ≤ rng n ∧ rng n < 1) →
        ∀ x ∈ generateMelody rng cfg, x ∈ (lookupKey cfg.scale musicScales).getD [] := by
  intro key cfg hmem rng hq x hx
  have h8 : 8 ≤ ((lookupKey cfg.scale musicScales).getD []).length := by
    simp only [moodConfigs, List.mem_cons, List.not_mem_nil, or_false,
      Prod.mk.injEq] at hmem
    rcases hmem with h | h | h | h | h | h | h | h | h | h | h | h <;>
      (rw [h.2]; decide)
  exact generateMelodyFromScale_mem rng cfg.pattern _ h8 hq x hx

/-- Witness for C10: the winter configuration (sparse pattern over the
8-note harmonic scale) at the constant-zero random stream puts "C4" in the
melody, and indeed "C4" is a note of the harmonic scale. -/
theorem c10_melody_witness :
    "C4" ∈ (lookupKey "harmonic" musicScales).getD [] := by
  have h := c10_melody_indices_safe "winter"
      ((lookupKey "winter" moodConfigs).getD emptyMoodConfig) (by decide)
      (fun _ => 0) (fun _ => ⟨le_refl 0, by norm_num⟩) "C4" (by decide)
  exact h

/-! ## Composer timer bookkeeping -/

theorem stopOp_isPlaying (st : ComposerState) : (stopOp st).isPlaying = false := by
  cases h : st.intervalId <;> simp [stopOp, h]

theorem stopOp_nextTimer (st : ComposerState) : (stopOp st).nextTimer = st.nextTimer := by
  cases h : st.intervalId <;> simp [stopOp, h]

theorem stopOp_randCursor (st : ComposerState) : (stopOp st).randCursor = st.randCursor := by
  cases h : st.intervalId <;> simp [stopOp, h]

theorem stopOp_intervalId (st : ComposerState) : (stopOp st).intervalId = none := by
  cases h : st.intervalId <;> simp [stopOp, h]

theorem stopOp_pending (st : ComposerState) (h : TimerInv st) :
    (stopOp st).pending = [] := by
  obtain ⟨h1, h2, h3⟩ := h
  cases hiid : st.intervalId with
  | none =>
    rw [hiid] at h1
    simp [stopOp, hiid, h1]
  | some i0 =>
    rw [hiid] at h1
    simp [stopOp, hiid, h1, List.erase_cons_head]

theorem stopOp_inv (st : ComposerState) (h : TimerInv st) : TimerInv (stopOp st) := by
  refine ⟨?_, fun _ => stopOp_intervalId st, ?_⟩
  · rw [stopOp_pending st h, stopOp_intervalId st]
  · intro i hi
    rw [stopOp_intervalId st] at hi
    cases hi

theorem tickBody_fields (rng : Nat → ℚ) (st : ComposerState) (hp : st.isPlaying = true) :
    (tickBody rng st).1.pending = st.nextTimer :: st.pending ∧
    (tickBody rng st).1.intervalId = some st.nextTimer ∧
    (tickBody rng st).1.nextTimer = st.nextTimer + 1 ∧
    (tickBody rng st).1.isPlaying = true := by
  simp [tickBody, hp]

theorem startComposition_fields (rng : Nat → ℚ) (config : MoodConfig)
    (st : ComposerState) :
    (startComposition rng config st).pending = st.nextTimer :: st.pending ∧
    (startComposition rng config st).intervalId = some st.nextTimer ∧
    (startComposition rng config st).nextTimer = st.nextTimer + 1 ∧
    (startComposition rng config st).isPlaying = true := by
  simp [startComposition, tickBody]

theorem stopIfPlaying_fields (st : ComposerState) (h : TimerInv st) :
    (if st.isPlaying then stopOp st else st).pending = [] ∧
    (if st.isPlaying then stopOp st else st).intervalId = none ∧
    (if st.isPlaying then stopOp st else st).nextTimer = st.nextTimer := by
  by_cases hp : st.isPlaying = true
  · simp only [hp, if_true]
    exact ⟨stopOp_pending st h, stopOp_intervalId st, stopOp_nextTimer st⟩
  · have hp' : st.isPlaying = false := by revert hp; cases st.isPlaying <;> simp
    have hiid : st.intervalId = none := h.2.1 hp'
    have hpend : st.pending = [] := by rw [h.1, hiid]
    simp [hp', hpend, hiid]

theorem composeOp_char (rng : Nat → ℚ) (m : String) (st : ComposerState)
    (h : TimerInv st) :
    TimerInv (composeOp rng m st) ∧
    ((composeOp rng m st).pending = [] ∨ (composeOp rng m st).pending = [st.nextTimer]) := by
  obtain ⟨H1, H2, H3⟩ := stopIfPlaying_fields st h
  unfold composeOp
  cases hcfg : lookupKey m moodConfigs with
  | none =>
    refine ⟨⟨?_, fun _ => H2, ?_⟩, Or.inl H1⟩
    · rw [H1, H2]
    · intro i hi
      rw [H2] at hi
      cases hi
  | some config =>
    obtain ⟨P1, P2, P3, P4⟩ := startComposition_fields rng config
      (if st.isPlaying then stopOp st else st)
    refine ⟨⟨?_, ?_, ?_⟩, Or.inr ?_⟩
    · rw [P1, P2, H1]
    · intro hfalse
      rw [P4] at hfalse
      cases hfalse
    · intro i hi
      rw [P2] at hi
      injection hi with hi
      rw [P3, ← hi]
      omega
    · rw [P1, H1, H3]

theorem tickFire_inv (rng : Nat → ℚ) (id : Nat) (st : ComposerState)
    (h : TimerInv st) : TimerInv (tickFire rng id st) := by
  obtain ⟨h1, h2, h3⟩ := h
  unfold tickFire
  split
  · next hmem =>
    cases hiid : st.intervalId with
    | none =>
      rw [hiid] at h1
      rw [h1] at hmem
      cases hmem
    | some i0 =>
      rw [hiid] at h1
      have hid : id = i0 := by
        rw [h1] at hmem
        simpa using hmem
      have hplay : st.isPlaying = true := by
        by_contra hc
        have hc' : st.isPlaying = false := by revert hc; cases st.isPlaying <;> simp
        rw [h2 hc'] at hiid
        cases hiid
      refine ⟨?_, ?_, ?_⟩
      · simp [tickBody, hplay, h1, hid, List.erase_cons_head]
      · simp [tickBody, hplay]
      · intro i hi
        simp [tickBody, hplay] at hi ⊢
        omega
  · exact ⟨h1, h2, h3⟩

theorem timerInv_step (rng : Nat → ℚ) (st : ComposerState) (op : ComposerOp)
    (h : TimerInv st) : TimerInv (composerStep rng st op) := by
  cases op with
  | compose m => exact (composeOp_char rng m st h).1
  | stop => exact stopOp_inv st h
  | tick id => exact tickFire_inv rng id st h

theorem timerInv_init : TimerInv composerInit :=
  ⟨rfl, fun _ => rfl, fun i hi => by cases hi⟩

theorem timerInv_run (rng : Nat → ℚ) (ops : List ComposerOp) :
    TimerInv (runComposer rng ops) := by
  suffices h : ∀ (l : List ComposerOp) (st : ComposerState), TimerInv st →
      TimerInv (l.foldl (composerStep rng) st) from h ops composerInit timerInv_init
  intro l
  induction l with
  | nil => exact fun _ h => h
  | cons op rest ih => exact fun st h => ih _ (timerInv_step rng st op h)

/-- C5: along every sequence of compose/stop/tick-firing events, at most one
next-tick timer is ever pending (the one handle stored in `intervalId`); and
a `compose` issued in any reachable state cancels the pending timer of the
composition in flight — that handle is never pending afterwards, whether or
not the new mood key exists. -/
theorem c5_single_composition (rng : Nat → ℚ) (ops : List ComposerOp) :
    (runComposer rng ops).pending.length ≤ 1 ∧
    (∀ m i, (runComposer rng ops).intervalId = some i →
      i ∉ (composeOp rng m (runComposer rng ops)).pending) := by
  have hinv := timerInv_run rng ops
  constructor
  · rw [hinv.1]
    cases (runComposer rng ops).intervalId <;> simp
  · intro m i hi
    have hlt : i < (runComposer rng ops).nextTimer := hinv.2.2 i hi
    rcases (composeOp_char rng m (runComposer rng ops) hinv).2 with hp | hp <;> rw [hp]
    · simp
    · simp
      omega

/-- Witness for C5: after `compose "epic"` the pending next-tick handle is 1,
and composing "joy" on top leaves handle 1 cancelled (pending becomes [2]). -/
theorem c5_single_witness :
    (runComposer (fun _ => 0) [ComposerOp.compose "epic"]).intervalId = some 1 ∧
    1 ∉ (composeOp (fun _ => 0) "joy"
        (runComposer (fun _ => 0) [ComposerOp.compose "epic"])).pending ∧
    (composeOp (fun _ => 0) "joy"
        (runComposer (fun _ => 0) [ComposerOp.compose "epic"])).pending = [2] := by
  refine ⟨by decide, ?_, by decide⟩
  exact (c5_single_composition (fun _ => 0) [ComposerOp.compose "epic"]).2 "joy" 1 (by decide)

/-- C8 (amended): `analyzeMood`'s fallback "peaceful" is not a key of
`moodConfigs`, so for every keyword-free input text,
`compose(analyzeMood(text))` finds no configuration and starts no
composition: no timer is allocated, the composer is not playing afterwards,
and from an idle state the call is a strict no-op.  (From a playing state it
is NOT a no-op: compose stops the running composition before the failed
lookup — see the counterexample.) -/
theorem c8_fallback_amended :
    ∀ t : String, (∀ e ∈ moodKeywords, moodScore (lowerString t) e = 0) →
      analyzeMood t = "peaceful" ∧
      lookupKey "peaceful" moodConfigs = none ∧
      (∀ (rng : Nat → ℚ) (st : ComposerState),
        (composeOp rng (analyzeMood t) st).isPlaying = false ∧
        (composeOp rng (analyzeMood t) st).nextTimer = st.nextTimer ∧
        (st.isPlaying = false → composeOp rng (analyzeMood t) st = st)) := by
  intro t hz
  have hmax : maxMoodScore (lowerString t) moodKeywords = 0 := by
    have hgen : ∀ l : List (String × List String),
        (∀ e ∈ l, moodScore (lowerString t) e = 0) →
        maxMoodScore (lowerString t) l = 0 := by
      intro l
      induction l with
      | nil => intro _; rfl
      | cons e rest ih =>
        intro ha
        rw [maxMoodScore_cons, ha e (List.mem_cons_self e rest),
          ih (fun x hx => ha x (List.mem_cons_of_mem _ hx))]
        rfl
    exact hgen moodKeywords hz
  have hA : analyzeMood t = "peaceful" := by
    unfold analyzeMood
    rw [moodFold_of_le (lowerString t) moodKeywords "peaceful" 0 (le_of_eq hmax)]
  have hcfg : lookupKey "peaceful" moodConfigs = none := by decide
  refine ⟨hA, hcfg, ?_⟩
  intro rng st
  rw [hA]
  by_cases hp : st.isPlaying = true
  · refine ⟨?_, ?_, ?_⟩
    · simp [composeOp, hcfg, hp, stopOp_isPlaying]
    · simp [composeOp, hcfg, hp, stopOp_nextTimer]
    · intro hfalse
      rw [hp] at hfalse
      cases hfalse
  · have hp' : st.isPlaying = false := by revert hp; cases st.isPlaying <;> simp
    refine ⟨?_, ?_, ?_⟩
    · simp [composeOp, hcfg, hp']
    · simp [composeOp, hcfg, hp']
    · intro _
      simp [composeOp, hcfg, hp']

/-- Witness for C8 (amended) on the keyword-free text "zzz" from the idle
constructor state. -/
theorem c8_fallback_witness :
    analyzeMood "zzz" = "peaceful" ∧
    lookupKey "peaceful" moodConfigs = none ∧
    composeOp (fun _ => 0) (analyzeMood "zzz") composerInit = composerInit := by
  have h := c8_fallback_amended "zzz" (by decide)
  exact ⟨h.1, h.2.1, (h.2.2 (fun _ => 0) composerInit).2.2 rfl⟩

/-- Counterexample for C8 as stated ("silently does nothing"): issued while a
composition is mid-flight, `compose(analyzeMood("zzz"))` is NOT a no-op — it
stops the running composition (the playing flag flips to false and the state
changes). -/
theorem c8_fallback_counterexample :
    (composeOp (fun _ => 0) "joy" composerInit).isPlaying = true ∧
    (composeOp (fun _ => 0) (analyzeMood "zzz")
        (composeOp (fun _ => 0) "joy" composerInit)).isPlaying = false ∧
    composeOp (fun _ => 0) (analyzeMood "zzz") (composeOp (fun _ => 0) "joy" composerInit) ≠
      composeOp (fun _ => 0) "joy" composerInit := by
  refine ⟨by decide, by decide, ?_⟩
  intro heq
  have h := congrArg ComposerState.isPlaying heq
  revert h
  decide

/-- C4: the tick contract of `playNextNote`.  On every tick: the current
melody note is pressed immediately; exactly when the random draw exceeds 0.7
(an event of probability 0.3 under the uniform draw), every note of the
current chord other than the melody note is additionally pressed 50 ms later
and the chord cursor advances modulo the chord count; the melody note is
released after `rhythm[cursor] * 0.8` ms; the melody and rhythm cursors
advance, each wrapping modulo its own length (staying in bounds); and the
next tick is scheduled after `rhythm[cursor]` ms. -/
theorem c4_tick_contract (comp : PianoComposition) (cur : Cursors) (q : ℚ)
    (hm : 0 < comp.melody.length) (hc : 0 < comp.chords.length)
    (hr : 0 < comp.rhythmPattern.length) :
    Scheduled.pressNow (comp.melody.getD cur.melodyIndex "") ∈ tickOutputs comp cur q ∧
    (∀ c : String, Scheduled.pressDelayed 50 c ∈ tickOutputs comp cur q ↔
      (7/10 < q ∧ c ∈ comp.chords.getD cur.chordIndex [] ∧
        c ≠ comp.melody.getD cur.melodyIndex "")) ∧
    Scheduled.releaseDelayed ((comp.rhythmPattern.getD cur.rhythmIndex 0 : ℚ) * (8/10))
      (comp.melody.getD cur.melodyIndex "") ∈ tickOutputs comp cur q ∧
    (∀ d : Nat, Scheduled.nextTick d ∈ tickOutputs comp cur q ↔
      d = comp.rhythmPattern.getD cur.rhythmIndex 0) ∧
    (tickNext comp cur q).melodyIndex = (cur.melodyIndex + 1) % comp.melody.length ∧
    (tickNext comp cur q).rhythmIndex = (cur.rhythmIndex + 1) % comp.rhythmPattern.length ∧
    ((tickNext comp cur q).chordIndex =
      if 7/10 < q then (cur.chordIndex + 1) % comp.chords.length else cur.chordIndex) ∧
    (tickNext comp cur q).melodyIndex < comp.melody.length ∧
    (tickNext comp cur q).rhythmIndex < comp.rhythmPattern.length ∧
    (7/10 < q → (tickNext comp cur q).chordIndex < comp.chords.length) := by
  refine ⟨?_, ?_, ?_, ?_, rfl, rfl, rfl, ?_, ?_, ?_⟩
  · simp [tickOutputs]
  · intro c
    by_cases hq : 7/10 < q
    · simp [tickOutputs, hq, List.mem_filter]
    · simp [tickOutputs, hq]
  · simp [tickOutputs]
  · intro d
    by_cases hq : 7/10 < q
    · simp [tickOutputs, hq, List.mem_filter]
    · simp [tickOutputs, hq]
  · exact Nat.mod_lt _ hm
  · exact Nat.mod_lt _ hr
  · intro hq
    simp only [tickNext, hq, if_pos]
    exact Nat.mod_lt _ hc

/-- Witness for C4 on a concrete two-note composition with a draw of 1 (the
chord fires): the melody note C4 is pressed, the chord note E4 is pressed
50 ms later, and the melody cursor advances to 1. -/
theorem c4_tick_witness :
    Scheduled.pressNow "C4" ∈
      tickOutputs ⟨["C4", "E4"], [["C4", "E4", "G4"]], [400, 600], 300⟩ ⟨0, 0, 0⟩ 1 ∧
    Scheduled.pressDelayed 50 "E4" ∈
      tickOutputs ⟨["C4", "E4"], [["C4", "E4", "G4"]], [400, 600], 300⟩ ⟨0, 0, 0⟩ 1 ∧
    (tickNext ⟨["C4", "E4"], [["C4", "E4", "G4"]], [400, 600], 300⟩ ⟨0, 0, 0⟩ 1).melodyIndex
      = 1 := by
  have h := c4_tick_contract ⟨["C4", "E4"], [["C4", "E4", "G4"]], [400, 600], 300⟩
    ⟨0, 0, 0⟩ 1 (by norm_num) (by norm_num) (by norm_num)
  refine ⟨h.1, ?_, h.2.2.2.2.1⟩
  exact (h.2.1 "E4").mpr ⟨by norm_num, by decide, by decide⟩
